import Mathlib

/-!
# Verification of the Contour configuration and translation pipeline

This file embeds, in Lean 4, the parts of the Contour repository needed to
settle the claims of the specification:

* the configuration-file parameter types and their `Validate` methods from
  `pkg/config/parameters.go` (together with a model of the Go standard
  library's `time.ParseDuration`, which those methods call), and
* the translation-and-distribution pipeline (graph builder, resource
  translator, snapshot cache, streaming protocol server) described in the
  specification; the source of that pipeline is not part of the file set, so
  those definitions are modelled from the specification text.

Go errors are modelled as `Option String` (`none` = nil error, `some msg` =
non-nil error), nil-able pointers as `Option`, and Go's `uint64` arithmetic as
`Nat` with the explicit overflow comparisons the Go code performs.
-/

/-! ## Configuration parameters, from `pkg/config/parameters.go` -/

/-- `NamespacedName` from `pkg/config/parameters.go`: namespace/name of a
Kubernetes resource referred from the configuration file. -/
structure NamespacedName where
  name : String
  nspace : String
deriving DecidableEq, Repr

/-- `GatewayParameters` from `pkg/config/parameters.go`: configuration for
Gateway API controllers.  Exactly one of `ControllerName` or `GatewayRef`
must be set. -/
structure GatewayParameters where
  ControllerName : String
  GatewayRef : Option NamespacedName
deriving DecidableEq, Repr

/-- `(*GatewayParameters).Validate` from `pkg/config/parameters.go`.
The Go receiver is a pointer, so the nil receiver is modelled by `none`. -/
def GatewayParameters.Validate (g : Option GatewayParameters) : Option String :=
  match g with
  | none => none
  | some g =>
    if g.ControllerName.length == 0 && g.GatewayRef.isNone then
      some "invalid Gateway parameters specified: exactly one of controller name or gateway ref must be provided"
    else if g.ControllerName.length > 0 && g.GatewayRef.isSome then
      some "invalid Gateway parameters specified: exactly one of controller name or gateway ref must be provided"
    else
      none

/-! ### A model of Go's `time.ParseDuration`

`TimeoutParameters.Validate` delegates the non-special strings to the Go
standard library's `time.ParseDuration` (src/time/format.go).  The functions
below model that parser.  `uint64` values are `Nat`s; the overflow guards are
the explicit comparisons with `2 ^ 63` that the Go code performs.  The one
deviation: Go computes the nanosecond value of a fractional component with
`float64` arithmetic, which is modelled here with exact integer division;
this can only differ on fractional components near the overflow bound and
never affects which strings are accepted in the claims below. -/

/-- Modelled from Go `time.leadingInt`: consume leading decimal digits into an
accumulator, failing (like the Go `errLeadingInt`) when the accumulated value
would overflow past `2 ^ 63`. -/
def leadingInt : List Char → Nat → Option (Nat × List Char)
  | [], x => some (x, [])
  | c :: rest, x =>
    if c.isDigit then
      if x > 2 ^ 63 / 10 then none
      else
        let x2 := x * 10 + (c.toNat - 48)
        if x2 > 2 ^ 63 then none
        else leadingInt rest x2
    else some (x, c :: rest)

/-- Modelled from Go `time.leadingFraction`: consume digits after a decimal
point, tracking the value, the scale (a power of ten), and whether the value
overflowed (further digits are then ignored rather than failing). -/
def leadingFraction : List Char → Nat → Nat → Bool → (Nat × Nat × List Char)
  | [], x, scale, _ => (x, scale, [])
  | c :: rest, x, scale, ovf =>
    if c.isDigit then
      if ovf then leadingFraction rest x scale true
      else if x > (2 ^ 63 - 1) / 10 then leadingFraction rest x scale true
      else
        let y := x * 10 + (c.toNat - 48)
        if y > 2 ^ 63 then leadingFraction rest x scale true
        else leadingFraction rest y (scale * 10) false
    else (x, scale, c :: rest)

/-- Modelled from Go `time.unitMap`: nanoseconds per named unit. -/
def unitValue : String → Option Nat
  | "ns" => some 1
  | "us" => some 1000
  | "µs" => some 1000
  | "μs" => some 1000
  | "ms" => some 1000000
  | "s" => some 1000000000
  | "m" => some 60000000000
  | "h" => some 3600000000000
  | _ => none

/-- Modelled from the main loop of Go `time.ParseDuration`: repeatedly parse
`[0-9]*(\.[0-9]*)?unit` components, accumulating nanoseconds in `d`.  The
first argument is fuel (each iteration consumes at least one character, so
fuel `s.length + 1` always suffices). -/
def parseDurationLoop : Nat → List Char → Nat → Option Nat
  | 0, _, _ => none
  | _ + 1, [], d => some d
  | fuel + 1, c :: s0, d =>
    let s := c :: s0
    -- the next character must be [0-9.]
    if c == '.' || c.isDigit then
      match leadingInt s 0 with
      | none => none
      | some (v, s1) =>
        let pre := s1.length != s.length
        let (post, f, scale, s2) :=
          match s1 with
          | '.' :: rest =>
            let (f, scale, rem) := leadingFraction rest 0 1 false
            (rem.length != rest.length, f, scale, rem)
          | _ => (false, 0, 1, s1)
        if !pre && !post then none
        else
          let us := s2.takeWhile (fun ch => !(ch == '.' || ch.isDigit))
          if us.length == 0 then none
          else
            match unitValue (String.mk us) with
            | none => none
            | some unit =>
              if v > 2 ^ 63 / unit then none
              else
                let v1 := v * unit
                let v2 := if f > 0 then v1 + f * unit / scale else v1
                if v2 > 2 ^ 63 then none
                else
                  let d2 := d + v2
                  if d2 > 2 ^ 63 then none
                  else parseDurationLoop fuel (s2.drop us.length) d2
    else none

/-- Modelled from Go `time.ParseDuration` (src/time/format.go): parse a
duration string of the form `[-+]?([0-9]*(\.[0-9]*)?[a-z]+)+` into
nanoseconds, returning `none` exactly when Go returns a non-nil error. -/
def parseDuration (str : String) : Option Int :=
  let s0 := str.data
  let (neg, s) :=
    match s0 with
    | '-' :: rest => (true, rest)
    | '+' :: rest => (false, rest)
    | other => (false, other)
  if s = ['0'] then some 0
  else if s = [] then none
  else
    match parseDurationLoop (s.length + 1) s 0 with
    | none => none
    | some d =>
      if neg then some (-(d : Int))
      else if d > 2 ^ 63 - 1 then none
      else some (d : Int)

/-- `TimeoutParameters` from `pkg/config/parameters.go`: configurable proxy
timeout values, each a string. -/
structure TimeoutParameters where
  RequestTimeout : String
  ConnectionIdleTimeout : String
  StreamIdleTimeout : String
  MaxConnectionDuration : String
  DelayedCloseTimeout : String
  ConnectionShutdownGracePeriod : String
  ConnectTimeout : String
deriving DecidableEq, Repr

/-- The local validator `v` inside `TimeoutParameters.Validate`: the empty
string, `"infinity"` and `"infinite"` are accepted, anything else must parse
as a Go duration. -/
def timeoutStringValid (str : String) : Option String :=
  if str = "" ∨ str = "infinity" ∨ str = "infinite" then none
  else
    match parseDuration str with
    | some _ => none
    | none => some "time: invalid duration"

/-- `TimeoutParameters.Validate` from `pkg/config/parameters.go`: the six
timeout fields go through the local validator `v` (`timeoutStringValid`),
while `ConnectTimeout` cannot be "infinite" and so uses `time.ParseDuration`
directly when non-empty. -/
def TimeoutParameters.Validate (t : TimeoutParameters) : Option String :=
  if (timeoutStringValid t.RequestTimeout).isSome then
    some ("invalid request timeout " ++ t.RequestTimeout)
  else if (timeoutStringValid t.ConnectionIdleTimeout).isSome then
    some ("connection idle timeout " ++ t.ConnectionIdleTimeout)
  else if (timeoutStringValid t.StreamIdleTimeout).isSome then
    some ("stream idle timeout " ++ t.StreamIdleTimeout)
  else if (timeoutStringValid t.MaxConnectionDuration).isSome then
    some ("max connection duration " ++ t.MaxConnectionDuration)
  else if (timeoutStringValid t.DelayedCloseTimeout).isSome then
    some ("delayed close timeout " ++ t.DelayedCloseTimeout)
  else if (timeoutStringValid t.ConnectionShutdownGracePeriod).isSome then
    some ("connection shutdown grace period " ++ t.ConnectionShutdownGracePeriod)
  else if t.ConnectTimeout ≠ "" ∧ (parseDuration t.ConnectTimeout).isNone then
    some ("connect timeout " ++ t.ConnectTimeout)
  else
    none

/-- `MetricsServerParameters` from `pkg/config/parameters.go`: configuration
for a metrics server endpoint. -/
structure MetricsServerParameters where
  Address : String
  Port : Int
  ServerCert : String
  ServerKey : String
  CABundle : String
deriving DecidableEq, Repr

/-- `(*MetricsServerParameters).Validate` from `pkg/config/parameters.go`:
certificate and key must be supplied together, and a CA bundle requires the
server certificate. -/
def MetricsServerParameters.Validate (p : MetricsServerParameters) : Option String :=
  if (p.ServerCert != "") != (p.ServerKey != "") then
    some "you must supply at least server-certificate-path and server-key-path or none of them"
  else if (p.CABundle != "") && (p.ServerCert == "") then
    some "you must supply also server-certificate-path and server-key-path if setting ca-certificate-path"
  else
    none

/-- `(*MetricsServerParameters).HasTLS` from `pkg/config/parameters.go`. -/
def MetricsServerParameters.HasTLS (p : MetricsServerParameters) : Bool :=
  p.ServerCert != "" && p.ServerKey != ""

/-! ## The translation-and-distribution pipeline

The graph builder, resource translator, snapshot cache and streaming
protocol server of the specification are not among the provided source
files, so the definitions below are modelled from the specification text
(sections 3, 4.1-4.4, 6 and 8). -/

/-- Modelled from the spec: a Routing Object is identified by
(kind, namespace, name). -/
structure ObjectRef where
  kind : String
  nspace : String
  name : String
deriving DecidableEq, Repr

/-- Modelled from the spec: a Routing Object declares a hostname, a port,
match rules, a backend target and optional TLS material; the hostname is a
required field, so an object missing it is malformed. -/
structure RoutingObject where
  ref : ObjectRef
  hostname : Option String
  port : Nat
  matchRules : List String
  backend : String
  requiresTLS : Bool
  secretName : String
  creationTime : Nat
deriving DecidableEq, Repr

/-- Modelled from the spec: a TLS Secret must contain both a certificate and
a matching private key to be valid. -/
structure Secret where
  cert : Option String
  key : Option String
deriving DecidableEq, Repr

/-- Modelled from the spec: the input snapshot delivered by the watch layer -
the complete current set of Routing Objects, Services, Endpoints and
Secrets. -/
structure Snapshot where
  objects : List RoutingObject
  services : List String
  endpoints : List (String × List String)
  secrets : List (String × Secret)
deriving DecidableEq, Repr

/-- Modelled from the spec: an object missing a required field (here the
hostname) is malformed. -/
def wellFormed (o : RoutingObject) : Bool :=
  o.hostname.isSome

/-- Modelled from the spec: per-object admission status, one of
Valid, Invalid(reason), Orphaned(reason). -/
inductive AdmissionStatus
  | Valid : AdmissionStatus
  | Invalid : String → AdmissionStatus
  | Orphaned : String → AdmissionStatus
deriving DecidableEq, Repr

/-- Strict lexicographic order on character lists, comparing code points -
the standard lexical string order. -/
def lexLt : List Char → List Char → Bool
  | [], [] => false
  | [], _ :: _ => true
  | _ :: _, [] => false
  | a :: as, b :: bs =>
    if a.toNat < b.toNat then true
    else if b.toNat < a.toNat then false
    else lexLt as bs

/-- Modelled from the spec: the deterministic precedence used to resolve an
identical-match conflict - earliest creation time first, then lexical
(kind, namespace, name).  This is a total order that is antisymmetric on
objects with distinct refs. -/
def objPrec (a b : RoutingObject) : Prop :=
  a.creationTime < b.creationTime ∨
    (a.creationTime = b.creationTime ∧
      (lexLt a.ref.kind.data b.ref.kind.data = true ∨
        (a.ref.kind = b.ref.kind ∧
          (lexLt a.ref.nspace.data b.ref.nspace.data = true ∨
            (a.ref.nspace = b.ref.nspace ∧
              lexLt b.ref.name.data a.ref.name.data = false)))))

instance (a b : RoutingObject) : Decidable (objPrec a b) := by
  unfold objPrec; infer_instance

/-- Modelled from the spec: object `o` declares match rule `m` for the
VirtualHost key `(h, p)`. -/
def declaresMatch (o : RoutingObject) (h : String) (p : Nat) (m : String) : Prop :=
  o.hostname = some h ∧ o.port = p ∧ m ∈ o.matchRules

instance (o : RoutingObject) (h : String) (p : Nat) (m : String) :
    Decidable (declaresMatch o h p m) := by
  unfold declaresMatch; infer_instance

/-- Modelled from the spec: `o` wins the conflict resolution for match rule
`m` on `(h, p)` - it declares the rule and precedes every other declarer. -/
def isWinner (objs : List RoutingObject) (h : String) (p : Nat) (m : String)
    (o : RoutingObject) : Prop :=
  declaresMatch o h p m ∧ ∀ o' ∈ objs, declaresMatch o' h p m → objPrec o o'

instance (objs : List RoutingObject) (h : String) (p : Nat) (m : String)
    (o : RoutingObject) : Decidable (isWinner objs h p m o) := by
  unfold isWinner; infer_instance

/-- Modelled from the spec: the winning declarer of match rule `m` on
`(h, p)`, if any. -/
def winner (objs : List RoutingObject) (h : String) (p : Nat) (m : String) :
    Option RoutingObject :=
  objs.find? (fun o => decide (isWinner objs h p m o))

/-- Modelled from the spec: a Route in the dependency graph - one match rule
together with the Cluster (backend target) it references. -/
structure RouteEntry where
  matchString : String
  cluster : String
deriving DecidableEq, Repr

/-- Modelled from the spec: the admitted route for match rule `m` on
`(h, p)`: the conflict winner's rule, provided its backend target resolves
to an existing Service (an unresolvable reference marks the route Invalid
and excludes it). -/
def routeFor (services : List String) (objs : List RoutingObject)
    (h : String) (p : Nat) (m : String) : Option RouteEntry :=
  match winner objs h p m with
  | none => none
  | some o => if o.backend ∈ services then some ⟨m, o.backend⟩ else none

/-- Modelled from the spec: all match rules declared for `(h, p)` by any
contributing object, without duplicates. -/
def matchesFor (objs : List RoutingObject) (h : String) (p : Nat) : List String :=
  (objs.flatMap (fun o => if o.hostname = some h ∧ o.port = p then o.matchRules else [])).dedup

/-- Modelled from the spec: route ordering within one VirtualHost -
decreasing match specificity (longer match string first), ties broken by the
lexical match string. -/
def routeKeyLT (a b : RouteEntry) : Prop :=
  b.matchString.length < a.matchString.length ∨
    (a.matchString.length = b.matchString.length ∧
      lexLt a.matchString.data b.matchString.data = true)

instance (a b : RouteEntry) : Decidable (routeKeyLT a b) := by
  unfold routeKeyLT; infer_instance

/-- Insert a route into a list sorted by `routeKeyLT`. -/
def insertRoute (r : RouteEntry) : List RouteEntry → List RouteEntry
  | [] => [r]
  | x :: xs => if routeKeyLT r x then r :: x :: xs else x :: insertRoute r xs

/-- Modelled from the spec: sort a route list by decreasing specificity with
the lexical tie-break (insertion sort). -/
def sortRoutes : List RouteEntry → List RouteEntry
  | [] => []
  | r :: rs => insertRoute r (sortRoutes rs)

/-- Modelled from the spec: the ordered route list of the VirtualHost
`(h, p)` - merge the admitted rules of all contributing objects and order
them by the specificity/tie-break rule. -/
def vhostRoutes (objs : List RoutingObject) (services : List String)
    (h : String) (p : Nat) : List RouteEntry :=
  sortRoutes ((matchesFor objs h p).filterMap (routeFor services objs h p))

/-- Modelled from the spec: a VirtualHost groups the ordered routes of one
(hostname, port). -/
structure VirtualHost where
  hostname : String
  port : Nat
  routes : List RouteEntry
deriving DecidableEq, Repr

/-- Modelled from the spec: a Listener owns the VirtualHosts of one port. -/
structure Listener where
  port : Nat
  vhosts : List VirtualHost
deriving DecidableEq, Repr

/-- Modelled from the spec: a Cluster node - a resolved backend target with
its endpoint addresses (legitimately empty when no endpoints exist). -/
structure ClusterNode where
  service : String
  endpoints : List String
deriving DecidableEq, Repr

/-- Modelled from the spec: a valid referenced TLS secret, fully resolved. -/
structure SecretNode where
  name : String
  cert : String
  key : String
deriving DecidableEq, Repr

/-- Modelled from the spec: the dependency graph - a forest of
Listener → VirtualHost → Route → Cluster, fully resolved. -/
structure Graph where
  listeners : List Listener
  clusters : List ClusterNode
  secretNodes : List SecretNode
deriving DecidableEq, Repr

/-- The cluster names referenced by all routes of a listener list. -/
def allClusterNames (listeners : List Listener) : List String :=
  listeners.flatMap (fun l => l.vhosts.flatMap (fun vh => vh.routes.map (·.cluster)))

/-- Modelled from the spec (§4.1): the graph builder.  Malformed objects are
filtered out up front; objects are grouped by (hostname, port); each group's
route list is merged with conflict resolution and ordered; a Cluster node is
attached for every resolved backend target; a secret node is attached for
every distinct valid referenced TLS Secret. -/
def buildGraph (s : Snapshot) : Graph :=
  let wf := s.objects.filter wellFormed
  let ports := (wf.map (·.port)).dedup
  let hostsFor := fun (p : Nat) =>
    (wf.filterMap (fun o => if o.port = p then o.hostname else none)).dedup
  let listeners := ports.map (fun p =>
    ⟨p, (hostsFor p).map (fun h => ⟨h, p, vhostRoutes wf s.services h p⟩)⟩)
  let clusterNames := (allClusterNames listeners).dedup
  let clusters := clusterNames.map (fun n => ⟨n, (s.endpoints.lookup n).getD []⟩)
  let secretNodes := (wf.filterMap (fun o =>
    if o.requiresTLS then
      match s.secrets.lookup o.secretName with
      | some ⟨some c, some k⟩ => some (⟨o.secretName, c, k⟩ : SecretNode)
      | _ => none
    else none)).dedup
  ⟨listeners, clusters, secretNodes⟩

/-- Modelled from the spec (§4.1 step 5): an object that contributed at
least one admitted rule is Valid; a malformed object is Invalid with the
missing-required-fields reason; otherwise it is Invalid for having no
admitted rule. -/
def statusOf (wf : List RoutingObject) (services : List String)
    (o : RoutingObject) : AdmissionStatus :=
  match o.hostname with
  | none => .Invalid "missing required fields"
  | some h =>
    if o.matchRules.any (fun m =>
        decide (isWinner wf h o.port m o) && services.contains o.backend) then
      .Valid
    else
      .Invalid "no rule admitted"

/-- Modelled from the spec: the admission results, one per input object. -/
def buildStatuses (s : Snapshot) : List (ObjectRef × AdmissionStatus) :=
  s.objects.map (fun o => (o.ref, statusOf (s.objects.filter wellFormed) s.services o))

/-- Modelled from the spec: `Build` - fails fatally only when the input
snapshot itself is unreadable (modelled by `none`); otherwise it always
returns the graph and the per-object statuses. -/
def build : Option Snapshot → Except String (Graph × List (ObjectRef × AdmissionStatus))
  | none => .error "input snapshot unreadable"
  | some s => .ok (buildGraph s, buildStatuses s)

/-! ## Resource Translator, modelled from the spec (§4.2, §6) -/

/-- Modelled from the spec: one listener resource per Listener node. -/
structure ListenerResource where
  name : String
  port : Nat
deriving DecidableEq, Repr

/-- Modelled from the spec: one route-table resource per Listener,
aggregating its VirtualHosts. -/
structure RouteTableResource where
  name : String
  vhosts : List VirtualHost
deriving DecidableEq, Repr

/-- Modelled from the spec: one cluster resource per Cluster node. -/
structure ClusterResource where
  name : String
deriving DecidableEq, Repr

/-- Modelled from the spec: one endpoint-assignment resource per Cluster,
derived from its resolved endpoints. -/
structure EndpointResource where
  cluster : String
  addrs : List String
deriving DecidableEq, Repr

/-- Modelled from the spec: one secret resource per distinct valid
referenced TLS Secret. -/
structure SecretResource where
  name : String
  cert : String
  key : String
deriving DecidableEq, Repr

/-- Modelled from the spec: a Resource Snapshot - one resource set per
family (listeners, route tables, clusters, endpoint assignments, secrets);
the version is assigned later, by the Snapshot Cache. -/
structure ResourceSnapshot where
  listenerSet : List ListenerResource
  routeTableSet : List RouteTableResource
  clusterSet : List ClusterResource
  endpointSet : List EndpointResource
  secretSet : List SecretResource
deriving DecidableEq, Repr

/-- Modelled from the spec: `Translate` - walk the graph and emit, for each
family, a complete ordered resource set, with identifiers stable functions
of the graph nodes. -/
def Translate (g : Graph) : ResourceSnapshot where
  listenerSet := g.listeners.map (fun l => ⟨"listener-" ++ toString l.port, l.port⟩)
  routeTableSet := g.listeners.map (fun l => ⟨"routes-" ++ toString l.port, l.vhosts⟩)
  clusterSet := g.clusters.map (fun c => ⟨c.service⟩)
  endpointSet := g.clusters.map (fun c => ⟨c.service, c.endpoints⟩)
  secretSet := g.secretNodes.map (fun sn => ⟨sn.name, sn.cert, sn.key⟩)

/-! ## Snapshot Cache, modelled from the spec (§4.3) -/

/-- Modelled from the spec: the five independent resource families. -/
inductive Family
  | listenerF | routeF | clusterF | endpointF | secretF
deriving DecidableEq, Repr

/-- The five families, enumerated. -/
def allFamilies : List Family :=
  [.listenerF, .routeF, .clusterF, .endpointF, .secretF]

/-- Serialize a route entry to wire bytes. -/
def serializeRoute (r : RouteEntry) : String :=
  r.matchString ++ ">" ++ r.cluster

/-- Serialize a virtual host to wire bytes. -/
def serializeVHost (vh : VirtualHost) : String :=
  vh.hostname ++ ":" ++ toString vh.port ++ "[" ++
    String.intercalate ";" (vh.routes.map serializeRoute) ++ "]"

/-- Modelled from the spec: the wire-format bytes of one family of a
resource snapshot, used for the byte-equality check in `publish`. -/
def familyContent (s : ResourceSnapshot) : Family → String
  | .listenerF =>
    String.intercalate "," (s.listenerSet.map (fun l => l.name ++ ":" ++ toString l.port))
  | .routeF =>
    String.intercalate "," (s.routeTableSet.map (fun rt =>
      rt.name ++ "=" ++ String.intercalate "|" (rt.vhosts.map serializeVHost)))
  | .clusterF =>
    String.intercalate "," (s.clusterSet.map (·.name))
  | .endpointF =>
    String.intercalate "," (s.endpointSet.map (fun e =>
      e.cluster ++ "=" ++ String.intercalate ";" e.addrs))
  | .secretF =>
    String.intercalate "," (s.secretSet.map (fun sec =>
      sec.name ++ "=" ++ sec.cert ++ "/" ++ sec.key))

/-- Modelled from the spec: the Snapshot Cache - the latest published
snapshot, a per-family version, and the single shared monotonic counter. -/
structure CacheState where
  counter : Nat
  published : ResourceSnapshot
  vers : Family → Nat

/-- Family `f` of snapshot `s` differs byte-wise from the currently
published content. -/
def changedFamily (c : CacheState) (s : ResourceSnapshot) (f : Family) : Bool :=
  familyContent s f != familyContent c.published f

/-- Modelled from the spec: `Publish` - per family, a byte-identical family
keeps its previous version, while every changed family receives the next
value of the single shared counter; the counter only advances when some
family changed. -/
def publish (c : CacheState) (s : ResourceSnapshot) : CacheState where
  counter := if allFamilies.any (changedFamily c s) then c.counter + 1 else c.counter
  published := s
  vers := fun f => if changedFamily c s f then c.counter + 1 else c.vers f

/-- The empty resource snapshot. -/
def emptySnapshot : ResourceSnapshot :=
  ⟨[], [], [], [], []⟩

/-- The initial cache: nothing published, all versions zero. -/
def initialCache : CacheState :=
  ⟨0, emptySnapshot, fun _ => 0⟩

/-- Cache invariant: no family version exceeds the shared counter. -/
def goodCache (c : CacheState) : Prop :=
  ∀ f, c.vers f ≤ c.counter

/-! ## Streaming Protocol Server, modelled from the spec (§4.4) -/

/-- Modelled from the spec: a pushed response - a version tagged with a
nonce. -/
structure Push where
  version : Nat
  nonce : Nat
deriving DecidableEq, Repr

/-- Modelled from the spec: Subscription State, per connection and family -
last acknowledged version, last push (version and nonce), requested resource
names, and a nonce source. -/
structure SubState where
  ackedVersion : Nat
  lastSent : Option Push
  names : List String
  nonceCounter : Nat
deriving DecidableEq, Repr

/-- Modelled from the spec: the events driving one subscription's state
machine - a client request (carrying the nonce being acked, an optional
error detail, and the requested names) or a new-version signal from the
Snapshot Cache. -/
inductive SubEvent
  | request (ackNonce : Option Nat) (errorDetail : Bool) (names : List String)
  | newVersion (v : Nat)
deriving DecidableEq, Repr

/-- `e` is a corrected client request relative to state `st`: a request
naming a different resource-name subset than the current subscription. -/
def correctedRequest (st : SubState) : SubEvent → Prop
  | .request _ _ names => names ≠ st.names
  | .newVersion _ => False

instance (st : SubState) (e : SubEvent) : Decidable (correctedRequest st e) := by
  unfold correctedRequest; cases e <;> infer_instance

/-- Modelled from the spec (§4.4 transitions): one step of the per-family
subscription state machine.  An initial request pushes the cache's current
content; a request carrying the last nonce and no error is an ACK (advance
the acknowledged version, push again only if a newer version exists); a
request carrying the last nonce and an error detail is a NACK (no state
advance, no re-push); a corrected request (changed name subset) is answered
with the current content; a cache signal pushes only a strictly newer
version. -/
def subStep (cacheVersion : Nat) (st : SubState) :
    SubEvent → SubState × Option Push
  | .newVersion v =>
    match st.lastSent with
    | none => (st, none)
    | some p =>
      if v > p.version then
        let push : Push := ⟨v, st.nonceCounter + 1⟩
        ({ st with lastSent := some push, nonceCounter := st.nonceCounter + 1 }, some push)
      else (st, none)
  | .request ackNonce err names =>
    match st.lastSent with
    | none =>
      let push : Push := ⟨cacheVersion, st.nonceCounter + 1⟩
      ({ st with names := names, lastSent := some push,
                 nonceCounter := st.nonceCounter + 1 }, some push)
    | some p =>
      if ackNonce = some p.nonce then
        if names ≠ st.names then
          let push : Push := ⟨cacheVersion, st.nonceCounter + 1⟩
          ({ st with names := names, lastSent := some push,
                     nonceCounter := st.nonceCounter + 1 }, some push)
        else if err then
          (st, none)
        else
          let st1 := { st with ackedVersion := p.version }
          if cacheVersion > p.version then
            let push : Push := ⟨cacheVersion, st.nonceCounter + 1⟩
            ({ st1 with lastSent := some push,
                        nonceCounter := st.nonceCounter + 1 }, some push)
          else (st1, none)
      else
        (st, none)

/-! ## Helper lemmas -/

/-- Every family is in the enumeration. -/
theorem mem_allFamilies (f : Family) : f ∈ allFamilies := by
  cases f <;> simp [allFamilies]

/-- The Build-then-Translate pipeline as one function of the input
snapshot. -/
def BuildTranslate (s : Snapshot) : ResourceSnapshot :=
  Translate (buildGraph s)

/-! ## Claim theorems -/

/-- **C1**: running the graph build followed by translation twice on the
same fixed input snapshot produces byte-identical ResourceSnapshots: the
pipeline is modelled (as the spec requires) as a pure function of the input
snapshot with no hidden state, so two runs on equal inputs agree both
structurally and byte-wise per family. -/
theorem build_translate_deterministic (s₁ s₂ : Snapshot)
    (r₁ r₂ : ResourceSnapshot)
    (hs : s₁ = s₂)
    (h₁ : r₁ = BuildTranslate s₁) (h₂ : r₂ = BuildTranslate s₂) :
    r₁ = r₂ ∧ ∀ f, familyContent r₁ f = familyContent r₂ f := by
  subst hs h₁ h₂
  exact ⟨rfl, fun _ => rfl⟩

/-- **C1 witness**: the two runs on a concrete snapshot agree. -/
theorem build_translate_deterministic_witness :
    BuildTranslate ⟨[⟨⟨"HTTPProxy", "default", "a"⟩, some "a.example.com", 80,
        ["/foo", "/bar"], "svc", false, "", 1⟩], ["svc"],
        [("svc", ["10.0.0.1"])], []⟩ =
      BuildTranslate ⟨[⟨⟨"HTTPProxy", "default", "a"⟩, some "a.example.com", 80,
        ["/foo", "/bar"], "svc", false, "", 1⟩], ["svc"],
        [("svc", ["10.0.0.1"])], []⟩ :=
  (build_translate_deterministic _ _ _ _ rfl rfl rfl).1

/-- **C2**: for every publish and every family: byte-identical content
leaves that family's version unchanged, while changed content receives the
next value (`counter + 1`) of the single shared counter - the same value for
every changed family of this publish, and no other family's version is
touched. -/
theorem publish_family_version_rule (c : CacheState) (s : ResourceSnapshot)
    (f : Family) :
    (familyContent s f = familyContent c.published f →
      (publish c s).vers f = c.vers f)
  ∧ (familyContent s f ≠ familyContent c.published f →
      (publish c s).vers f = c.counter + 1) := by
  constructor <;> intro h
  · simp [publish, changedFamily, h]
  · simp [publish, changedFamily, bne_iff_ne, h]

/-- **C2 witness**: on a concrete publish, an unchanged family keeps its
version and a changed family gets the next counter value. -/
theorem publish_family_version_rule_witness :
    (publish ⟨5, emptySnapshot, fun _ => 3⟩
        ⟨[⟨"listener-80", 80⟩], [], [], [], []⟩).vers .listenerF = 6
  ∧ (publish ⟨5, emptySnapshot, fun _ => 3⟩
        ⟨[⟨"listener-80", 80⟩], [], [], [], []⟩).vers .secretF = 3 := by
  constructor
  · exact (publish_family_version_rule ⟨5, emptySnapshot, fun _ => 3⟩
      ⟨[⟨"listener-80", 80⟩], [], [], [], []⟩ .listenerF).2 (by decide)
  · exact (publish_family_version_rule ⟨5, emptySnapshot, fun _ => 3⟩
      ⟨[⟨"listener-80", 80⟩], [], [], [], []⟩ .secretF).1 (by decide)

/-- **C3**: the version of a published family is strictly increasing: under
the invariant that no family version exceeds the shared counter (which holds
initially and is preserved by every publish, hence along every sequence of
publishes), a publish that changes a family's content strictly increases
that family's version. -/
theorem publish_version_strictly_increasing :
    (∀ (c : CacheState) (s : ResourceSnapshot) (f : Family), goodCache c →
      familyContent s f ≠ familyContent c.published f →
      c.vers f < (publish c s).vers f)
  ∧ (∀ (c : CacheState) (s : ResourceSnapshot), goodCache c →
      goodCache (publish c s))
  ∧ goodCache initialCache
  ∧ (∀ (snaps : List ResourceSnapshot) (c : CacheState), goodCache c →
      goodCache (snaps.foldl publish c)) := by
  have hstep : ∀ (c : CacheState) (s : ResourceSnapshot), goodCache c →
      goodCache (publish c s) := by
    intro c s hg f
    by_cases hch : changedFamily c s f = true
    · have hany : allFamilies.any (changedFamily c s) = true :=
        List.any_eq_true.mpr ⟨f, mem_allFamilies f, hch⟩
      simp [publish, hch, hany]
    · have h1 : (publish c s).vers f = c.vers f := by
        simp [publish, hch]
      have h2 : c.counter ≤ (publish c s).counter := by
        simp only [publish]
        split <;> omega
      calc (publish c s).vers f = c.vers f := h1
        _ ≤ c.counter := hg f
        _ ≤ (publish c s).counter := h2
  refine ⟨?_, hstep, ?_, ?_⟩
  · intro c s f hg hne
    have : (publish c s).vers f = c.counter + 1 := by
      simp [publish, changedFamily, bne_iff_ne, hne]
    rw [this]
    exact Nat.lt_succ_of_le (hg f)
  · intro f; exact Nat.le_refl 0
  · intro snaps
    induction snaps with
    | nil => intro c hg; exact hg
    | cons s rest ih => intro c hg; exact ih (publish c s) (hstep c s hg)

/-- **C3 witness**: a concrete content-changing publish strictly increases
the family's version, starting from the initial cache. -/
theorem publish_version_strictly_increasing_witness :
    initialCache.vers .clusterF <
      (publish initialCache ⟨[], [], [⟨"svc"⟩], [], []⟩).vers .clusterF :=
  publish_version_strictly_increasing.1 initialCache
    ⟨[], [], [⟨"svc"⟩], [], []⟩ .clusterF
    publish_version_strictly_increasing.2.2.1 (by decide)

/-- **C4**: a NACK - a request carrying the last nonce together with an
explicit error detail (and no change to the requested names) - leaves the
subscription state unchanged (in particular the acknowledged version does
not advance) and triggers no push; and from that state, every event that is
not a corrected client request can only push a version strictly newer than
the version `p.version` that was just rejected - so the rejected version is
never re-sent verbatim. -/
theorem nack_never_resends (cv cv2 : Nat) (st : SubState) (p : Push)
    (hls : st.lastSent = some p) :
    (subStep cv st (.request (some p.nonce) true st.names) = (st, none))
  ∧ (∀ e : SubEvent, ¬ correctedRequest st e →
      ∀ q : Push, (subStep cv2 st e).2 = some q → p.version < q.version) := by
  constructor
  · simp [subStep, hls]
  · intro e hne q hq
    cases e with
    | newVersion v =>
      simp only [subStep, hls] at hq
      split at hq
      · next hgt =>
        cases hq
        exact hgt
      · simp at hq
    | request ack err names =>
      have hnames : names = st.names := by
        by_contra hc
        exact hne hc
      subst hnames
      simp only [subStep, hls] at hq
      split at hq
      · rw [if_neg (by simp)] at hq
        split at hq
        · simp at hq
        · split at hq
          · next hgt =>
            cases hq
            exact hgt
          · simp at hq
      · simp at hq

/-- **C4 witness**: concrete subscription state: the NACK of the pushed
version 7 changes nothing and pushes nothing, and a later cache signal for
version 8 pushes a strictly newer version. -/
theorem nack_never_resends_witness :
    (subStep 7 ⟨5, some ⟨7, 41⟩, ["r"], 41⟩
        (.request (some 41) true ["r"]) = (⟨5, some ⟨7, 41⟩, ["r"], 41⟩, none))
  ∧ 7 < 8 := by
  constructor
  · exact (nack_never_resends 7 8 ⟨5, some ⟨7, 41⟩, ["r"], 41⟩ ⟨7, 41⟩ rfl).1
  · exact Nat.lt_succ_self 7

/-- A string has length zero exactly when it is empty. -/
theorem string_length_eq_zero_iff (s : String) : s.length = 0 ↔ s = "" := by
  constructor
  · intro h
    cases s with
    | mk d =>
      cases d with
      | nil => rfl
      | cons c cs => simp [String.length] at h
  · intro h; subst h; rfl

/-- **C8**: `GatewayParameters.Validate` returns nil exactly when the
receiver is nil or exactly one of `ControllerName` (non-empty) and
`GatewayRef` (non-nil) is set; with both unset or both set it returns an
error. -/
theorem GatewayParameters_Validate_ok_iff (g : Option GatewayParameters) :
    GatewayParameters.Validate g = none ↔
      (g = none ∨ ∃ gp, g = some gp ∧
        ((gp.ControllerName ≠ "" ∧ gp.GatewayRef = none) ∨
         (gp.ControllerName = "" ∧ gp.GatewayRef ≠ none))) := by
  cases g with
  | none => simp [GatewayParameters.Validate]
  | some gp =>
    by_cases hc : gp.ControllerName = ""
    · have hlen : gp.ControllerName.length = 0 :=
        (string_length_eq_zero_iff _).mpr hc
      cases hr : gp.GatewayRef with
      | none => simp [GatewayParameters.Validate, hlen, hc, hr]
      | some nn => simp [GatewayParameters.Validate, hlen, hc, hr]
    · have hlen : gp.ControllerName.length ≠ 0 :=
        fun h => hc ((string_length_eq_zero_iff _).mp h)
      have hpos : 0 < gp.ControllerName.length := Nat.pos_of_ne_zero hlen
      cases hr : gp.GatewayRef with
      | none => simp [GatewayParameters.Validate, hlen, hpos, hc, hr]
      | some nn => simp [GatewayParameters.Validate, hlen, hpos, hc, hr]

/-- **C10**: `MetricsServerParameters.Validate` errs exactly when exactly
one of `ServerCert`/`ServerKey` is non-empty or `CABundle` is set without
`ServerCert`; and whenever it returns nil, `HasTLS` holds exactly when
`ServerCert` is non-empty. -/
theorem MetricsServerParameters_Validate_spec (p : MetricsServerParameters) :
    ((MetricsServerParameters.Validate p).isSome = true ↔
      (¬((p.ServerCert ≠ "") ↔ (p.ServerKey ≠ "")) ∨
        (p.CABundle ≠ "" ∧ p.ServerCert = "")))
  ∧ (MetricsServerParameters.Validate p = none →
      (p.HasTLS = true ↔ p.ServerCert ≠ "")) := by
  by_cases hc : p.ServerCert = "" <;> by_cases hk : p.ServerKey = "" <;>
    by_cases hb : p.CABundle = "" <;>
      simp [MetricsServerParameters.Validate, MetricsServerParameters.HasTLS,
        bne_iff_ne, beq_iff_eq, hc, hk, hb]
  all_goals
    rw [Bool.eq_iff_iff]
    simp [bne_iff_ne, *]

/-- **C10 witness**: with certificate and key both set and no CA bundle,
`Validate` succeeds and `HasTLS` holds. -/
theorem MetricsServerParameters_Validate_spec_witness :
    (MetricsServerParameters.HasTLS ⟨"0.0.0.0", 8002, "crt", "key", ""⟩) = true :=
  (MetricsServerParameters_Validate_spec ⟨"0.0.0.0", 8002, "crt", "key", ""⟩).2
    (by decide) |>.mpr (by decide)

/-- **C9**: the six timeout fields accept `""`, `"infinity"` and
`"infinite"` (anything else must parse as a Go duration), but
`ConnectTimeout` accepts only `""` and parseable durations - so every
`TimeoutParameters` whose `ConnectTimeout` is `"infinity"` or `"infinite"`
fails validation, while the same strings pass for the six other fields. -/
theorem TimeoutParameters_Validate_infinity (t : TimeoutParameters)
    (h : t.ConnectTimeout = "infinity" ∨ t.ConnectTimeout = "infinite") :
    ((TimeoutParameters.Validate t).isSome = true)
  ∧ (∀ s : String, (s = "" ∨ s = "infinity" ∨ s = "infinite") →
      TimeoutParameters.Validate ⟨s, s, s, s, s, s, ""⟩ = none) := by
  constructor
  · rw [TimeoutParameters.Validate]
    split_ifs with h1 h2 h3 h4 h5 h6 h7
    · rfl
    · rfl
    · rfl
    · rfl
    · rfl
    · rfl
    · rfl
    · exact absurd ⟨by rcases h with h | h <;> simp [h],
        by rcases h with h | h <;> rw [h] <;> decide⟩ h7
  · intro s hs
    rcases hs with rfl | rfl | rfl <;> decide

/-- **C9 witness**: the concrete parameter set with `ConnectTimeout` set to
`"infinity"` is rejected, and the six other fields accept `"infinity"`. -/
theorem TimeoutParameters_Validate_infinity_witness :
    ((TimeoutParameters.Validate ⟨"", "", "", "", "", "", "infinity"⟩).isSome = true)
  ∧ TimeoutParameters.Validate
      ⟨"infinity", "infinity", "infinity", "infinity", "infinity", "infinity", ""⟩ = none := by
  constructor
  · exact (TimeoutParameters_Validate_infinity
      ⟨"", "", "", "", "", "", "infinity"⟩ (Or.inl rfl)).1
  · exact (TimeoutParameters_Validate_infinity
      ⟨"", "", "", "", "", "", "infinity"⟩ (Or.inl rfl)).2 "infinity" (Or.inr (Or.inl rfl))

/-- The snapshot restricted to its well-formed objects. -/
def restrictWellFormed (s : Snapshot) : Snapshot :=
  { s with objects := s.objects.filter wellFormed }

/-- **C5**: the graph builder tolerates malformed Routing Objects: building
any readable snapshot succeeds; every malformed object (missing the required
hostname) receives Invalid admission status; the produced dependency graph
is exactly the graph of the snapshot with the malformed objects removed
(they are excluded); and only an unreadable input snapshot fails the
build fatally. -/
theorem build_tolerates_malformed :
    (∀ s : Snapshot, (build (some s)).isOk = true)
  ∧ (∀ (s : Snapshot) (o : RoutingObject), o ∈ s.objects → wellFormed o = false →
      (o.ref, AdmissionStatus.Invalid "missing required fields") ∈ buildStatuses s)
  ∧ (∀ s : Snapshot, buildGraph s = buildGraph (restrictWellFormed s))
  ∧ build none = .error "input snapshot unreadable" := by
  refine ⟨fun s => rfl, ?_, ?_, rfl⟩
  · intro s o ho hwf
    have hnone : o.hostname = none := by
      simpa [wellFormed, Option.isSome_iff_exists] using hwf
    refine List.mem_map.mpr ⟨o, ho, ?_⟩
    simp [statusOf, hnone]
  · intro s
    simp [buildGraph, restrictWellFormed, List.filter_filter]

/-- **C5 witness**: a concrete snapshot with one malformed object builds
successfully, reports it Invalid, and excludes it from the graph. -/
theorem build_tolerates_malformed_witness :
    ((build (some ⟨[⟨⟨"HTTPProxy", "ns", "bad"⟩, none, 80, ["/"], "svc", false, "", 0⟩],
        ["svc"], [], []⟩)).isOk = true)
  ∧ (⟨⟨"HTTPProxy", "ns", "bad"⟩, AdmissionStatus.Invalid "missing required fields"⟩
      ∈ buildStatuses ⟨[⟨⟨"HTTPProxy", "ns", "bad"⟩, none, 80, ["/"], "svc", false, "", 0⟩],
        ["svc"], [], []⟩) := by
  constructor
  · exact build_tolerates_malformed.1 _
  · exact build_tolerates_malformed.2.1
      ⟨[⟨⟨"HTTPProxy", "ns", "bad"⟩, none, 80, ["/"], "svc", false, "", 0⟩], ["svc"], [], []⟩
      ⟨⟨"HTTPProxy", "ns", "bad"⟩, none, 80, ["/"], "svc", false, "", 0⟩
      (by decide) (by decide)

/-- **C7**: in every published ResourceSnapshot (the output of the
Build-then-Translate pipeline), there are no dangling cross-family
references: every cluster name referenced by any route of any route-table
resource also names a resource of the same snapshot's cluster-set. -/
theorem published_no_dangling_refs (s : Snapshot) (nm : String)
    (h : nm ∈ (BuildTranslate s).routeTableSet.flatMap
          (fun rt => rt.vhosts.flatMap (fun vh => vh.routes.map RouteEntry.cluster))) :
    nm ∈ (BuildTranslate s).clusterSet.map ClusterResource.name := by
  have hroute : nm ∈ allClusterNames (buildGraph s).listeners := by
    rcases List.mem_flatMap.mp h with ⟨rt, hrt, hin⟩
    rcases List.mem_map.mp hrt with ⟨l, hl, rfl⟩
    exact List.mem_flatMap.mpr ⟨l, hl, hin⟩
  have hmapmk : ∀ (names : List String) (f : String → List String),
      (names.map (fun n => ({ service := n, endpoints := f n } : ClusterNode))).map
        ClusterNode.service = names := by
    intro names f
    induction names with
    | nil => rfl
    | cons a as ih => simp only [List.map_cons, ih]
  have hclusters : (buildGraph s).clusters.map ClusterNode.service
      = (allClusterNames (buildGraph s).listeners).dedup :=
    hmapmk _ _
  have hmem : nm ∈ (buildGraph s).clusters.map ClusterNode.service := by
    rw [hclusters]
    exact List.mem_dedup.mpr hroute
  rcases List.mem_map.mp hmem with ⟨c, hc, rfl⟩
  exact List.mem_map.mpr ⟨⟨c.service⟩, List.mem_map.mpr ⟨c, hc, rfl⟩, rfl⟩

/-- **C7 witness**: in the snapshot translated from a concrete build, the
cluster referenced by the only route exists in the cluster-set. -/
theorem published_no_dangling_refs_witness :
    "svc" ∈ (BuildTranslate ⟨[⟨⟨"HTTPProxy", "ns", "a"⟩, some "a.example.com", 80,
        ["/"], "svc", false, "", 0⟩], ["svc"], [], []⟩).clusterSet.map
        ClusterResource.name :=
  published_no_dangling_refs
    ⟨[⟨⟨"HTTPProxy", "ns", "a"⟩, some "a.example.com", 80, ["/"], "svc", false, "", 0⟩],
      ["svc"], [], []⟩ "svc" (by decide)

/-! ### Order lemmas for the route sort and the conflict precedence -/

/-- Characters with equal code points are equal. -/
theorem char_toNat_inj {a b : Char} (h : a.toNat = b.toNat) : a = b := by
  have h2 : a.val = b.val := UInt32.toNat.inj h
  cases a; cases b; simp_all

/-- Strings with equal character data are equal. -/
theorem string_data_inj {s t : String} (h : s.data = t.data) : s = t := by
  cases s; cases t; simp_all

/-- `lexLt` is irreflexive. -/
theorem lexLt_irrefl : ∀ a : List Char, lexLt a a = false
  | [] => rfl
  | c :: cs => by simp [lexLt, lexLt_irrefl cs]

/-- `lexLt` is asymmetric. -/
theorem lexLt_asymm : ∀ (a b : List Char),
    lexLt a b = true → lexLt b a = true → False
  | [], [] => by simp [lexLt]
  | [], _ :: _ => by simp [lexLt]
  | _ :: _, [] => by intro h _; simp [lexLt] at h
  | a :: as, b :: bs => by
    intro h1 h2
    simp only [lexLt] at h1 h2
    rcases Nat.lt_trichotomy a.toNat b.toNat with h | h | h
    · rw [if_neg (by omega), if_pos h] at h2
      exact Bool.false_ne_true h2
    · rw [if_neg (by omega), if_neg (by omega)] at h1
      rw [if_neg (by omega), if_neg (by omega)] at h2
      exact lexLt_asymm as bs h1 h2
    · rw [if_neg (by omega), if_pos h] at h1
      exact Bool.false_ne_true h1

/-- Two lists neither of which lexically precedes the other are equal. -/
theorem lexLt_eq_of_not : ∀ (a b : List Char),
    lexLt a b = false → lexLt b a = false → a = b
  | [], [] => fun _ _ => rfl
  | [], _ :: _ => by intro h _; simp [lexLt] at h
  | _ :: _, [] => by intro _ h; simp [lexLt] at h
  | a :: as, b :: bs => by
    intro h1 h2
    simp only [lexLt] at h1 h2
    rcases Nat.lt_trichotomy a.toNat b.toNat with h | h | h
    · rw [if_pos h] at h1
      exact absurd h1 (by simp)
    · rw [if_neg (by omega), if_neg (by omega)] at h1
      rw [if_neg (by omega), if_neg (by omega)] at h2
      rw [char_toNat_inj h, lexLt_eq_of_not as bs h1 h2]
    · rw [if_pos h] at h2
      exact absurd h2 (by simp)

/-- `lexLt` is transitive. -/
theorem lexLt_trans : ∀ (a b c : List Char),
    lexLt a b = true → lexLt b c = true → lexLt a c = true
  | [], [], _ => by intro h _; simp [lexLt] at h
  | [], _ :: _, [] => by intro _ h; simp [lexLt] at h
  | [], _ :: _, _ :: _ => by intro _ _; rfl
  | _ :: _, [], _ => by intro h _; simp [lexLt] at h
  | _ :: _, _ :: _, [] => by intro _ h; simp [lexLt] at h
  | a :: as, b :: bs, c :: cs => by
    intro h1 h2
    simp only [lexLt] at h1 h2 ⊢
    by_cases hba : b.toNat < a.toNat
    · rw [if_neg (by omega), if_pos hba] at h1
      exact absurd h1 (by simp)
    · by_cases hcb : c.toNat < b.toNat
      · rw [if_neg (by omega), if_pos hcb] at h2
        exact absurd h2 (by simp)
      · by_cases hab : a.toNat < b.toNat
        · by_cases hbc : b.toNat < c.toNat
          · rw [if_pos (by omega)]
          · rw [if_pos (by omega)]
        · by_cases hbc : b.toNat < c.toNat
          · rw [if_pos (by omega)]
          · rw [if_neg (by omega), if_neg (by omega)]
            rw [if_neg hab, if_neg hba] at h1
            rw [if_neg hbc, if_neg hcb] at h2
            exact lexLt_trans as bs cs h1 h2

/-- `routeKeyLT` is transitive. -/
theorem routeKeyLT_trans {a b c : RouteEntry}
    (h1 : routeKeyLT a b) (h2 : routeKeyLT b c) : routeKeyLT a c := by
  unfold routeKeyLT at h1 h2 ⊢
  rcases h1 with h1 | ⟨e1, l1⟩ <;> rcases h2 with h2 | ⟨e2, l2⟩
  · left; omega
  · left; omega
  · left; omega
  · right; exact ⟨by omega, lexLt_trans _ _ _ l1 l2⟩

/-- `routeKeyLT` is asymmetric. -/
theorem routeKeyLT_asymm {a b : RouteEntry}
    (h1 : routeKeyLT a b) (h2 : routeKeyLT b a) : False := by
  unfold routeKeyLT at h1 h2
  rcases h1 with h1 | ⟨e1, l1⟩ <;> rcases h2 with h2 | ⟨e2, l2⟩
  · omega
  · omega
  · omega
  · exact lexLt_asymm _ _ l1 l2

/-- `routeKeyLT` is total on routes with distinct match strings. -/
theorem routeKeyLT_total {a b : RouteEntry} (h : a.matchString ≠ b.matchString) :
    routeKeyLT a b ∨ routeKeyLT b a := by
  unfold routeKeyLT
  rcases Nat.lt_trichotomy a.matchString.length b.matchString.length with hl | hl | hl
  · right; left; exact hl
  · cases hlex : lexLt a.matchString.data b.matchString.data
    · cases hlex2 : lexLt b.matchString.data a.matchString.data
      · exact absurd (string_data_inj (lexLt_eq_of_not _ _ hlex hlex2)) h
      · right; right; exact ⟨hl.symm, rfl⟩
    · left; right; exact ⟨hl, rfl⟩
  · left; left; exact hl

/-! ### Correctness of the insertion sort -/

/-- Inserting permutes to consing. -/
theorem insertRoute_perm (r : RouteEntry) :
    ∀ l, List.Perm (insertRoute r l) (r :: l)
  | [] => List.Perm.refl _
  | x :: xs => by
    unfold insertRoute
    split
    · exact List.Perm.refl _
    · exact ((insertRoute_perm r xs).cons x).trans (List.Perm.swap r x xs)

/-- Sorting permutes the input. -/
theorem sortRoutes_perm : ∀ l, List.Perm (sortRoutes l) l
  | [] => List.Perm.refl _
  | r :: rs => (insertRoute_perm r (sortRoutes rs)).trans
      ((sortRoutes_perm rs).cons r)

/-- Members of an insertion. -/
theorem mem_insertRoute {x r : RouteEntry} {l : List RouteEntry}
    (h : x ∈ insertRoute r l) : x = r ∨ x ∈ l := by
  have := (insertRoute_perm r l).mem_iff.mp h
  simpa using this

/-- Inserting into a sorted list with a fresh match string keeps it
sorted. -/
theorem pairwise_insertRoute {r : RouteEntry} : ∀ {l : List RouteEntry},
    l.Pairwise routeKeyLT → (∀ x ∈ l, x.matchString ≠ r.matchString) →
    (insertRoute r l).Pairwise routeKeyLT := by
  intro l
  induction l with
  | nil => intro _ _; simp [insertRoute]
  | cons x xs ih =>
    intro hp hd
    obtain ⟨hx, hxs⟩ := List.pairwise_cons.mp hp
    unfold insertRoute
    split
    · next hrx =>
      refine List.Pairwise.cons ?_ hp
      intro y hy
      rcases List.mem_cons.mp hy with rfl | hy'
      · exact hrx
      · exact routeKeyLT_trans hrx (hx y hy')
    · next hrx =>
      have hxr : routeKeyLT x r := by
        rcases routeKeyLT_total (hd x (List.mem_cons_self x xs)) with h | h
        · exact h
        · exact absurd h hrx
      refine List.Pairwise.cons ?_
        (ih hxs (fun y hy => hd y (List.mem_cons_of_mem x hy)))
      intro y hy
      rcases mem_insertRoute hy with rfl | hy'
      · exact hxr
      · exact hx y hy'

/-- Sorting a list of routes with pairwise-distinct match strings yields a
list strictly ordered by the specificity/tie-break key. -/
theorem pairwise_sortRoutes : ∀ {l : List RouteEntry},
    l.Pairwise (fun a b => a.matchString ≠ b.matchString) →
    (sortRoutes l).Pairwise routeKeyLT := by
  intro l
  induction l with
  | nil => intro _; simp [sortRoutes]
  | cons r rs ih =>
    intro hp
    obtain ⟨hd, htl⟩ := List.pairwise_cons.mp hp
    exact pairwise_insertRoute (ih htl)
      (fun x hx => (hd x ((sortRoutes_perm rs).mem_iff.mp hx)).symm)

/-- An admitted route carries the match rule it was built for. -/
theorem routeFor_matchString {sv : List String} {objs : List RoutingObject}
    {h : String} {p : Nat} {m : String} {r : RouteEntry}
    (hr : routeFor sv objs h p m = some r) : r.matchString = m := by
  unfold routeFor at hr
  split at hr
  · exact absurd hr (by simp)
  · split at hr
    · cases hr; rfl
    · exact absurd hr (by simp)

/-- The admitted routes of one VirtualHost have pairwise-distinct match
strings. -/
theorem pairwise_ne_key (wf : List RoutingObject) (sv : List String)
    (h : String) (p : Nat) :
    ((matchesFor wf h p).filterMap (routeFor sv wf h p)).Pairwise
      (fun a b => a.matchString ≠ b.matchString) := by
  apply List.pairwise_filterMap.mpr
  have hnd : (matchesFor wf h p).Nodup := List.nodup_dedup _
  refine List.Pairwise.imp ?_ hnd
  intro m m' hne x hx y hy
  rw [routeFor_matchString (Option.mem_def.mp hx),
    routeFor_matchString (Option.mem_def.mp hy)]
  exact hne

/-- Every VirtualHost route list is strictly sorted by the key. -/
theorem vhostRoutes_pairwise (wf : List RoutingObject) (sv : List String)
    (h : String) (p : Nat) :
    (vhostRoutes wf sv h p).Pairwise routeKeyLT :=
  pairwise_sortRoutes (pairwise_ne_key wf sv h p)

/-- In a built graph, every VirtualHost's route list is the merged, ordered
route list of its (hostname, port). -/
theorem buildGraph_vhost_routes {s : Snapshot} {l : Listener} {vh : VirtualHost}
    (hl : l ∈ (buildGraph s).listeners) (hvh : vh ∈ l.vhosts) :
    vh.routes = vhostRoutes (s.objects.filter wellFormed) s.services
      vh.hostname vh.port := by
  simp only [buildGraph] at hl
  rcases List.mem_map.mp hl with ⟨p, hp, rfl⟩
  rcases List.mem_map.mp hvh with ⟨hh, hhmem, rfl⟩
  rfl

/-! ### Input-order independence of the merged route lists -/

/-- `List.all` agrees on permuted lists. -/
theorem perm_all_eq {α : Type} {l₁ l₂ : List α} (hp : List.Perm l₁ l₂)
    (p : α → Bool) : l₁.all p = l₂.all p := by
  apply Bool.eq_iff_iff.mpr
  simp only [List.all_eq_true]
  constructor <;> intro h x hx
  · exact h x (hp.mem_iff.mpr hx)
  · exact h x (hp.mem_iff.mp hx)

/-- Winning the conflict resolution only depends on the set of objects. -/
theorem isWinner_perm {l₁ l₂ : List RoutingObject} (hp : List.Perm l₁ l₂)
    (h : String) (p : Nat) (m : String) (o : RoutingObject) :
    isWinner l₁ h p m o ↔ isWinner l₂ h p m o := by
  unfold isWinner
  constructor <;> rintro ⟨h1, h2⟩ <;> refine ⟨h1, fun o' ho' hd => ?_⟩
  · exact h2 o' (hp.mem_iff.mpr ho') hd
  · exact h2 o' (hp.mem_iff.mp ho') hd

/-- `find?` with pointwise-equal predicates. -/
theorem find?_congr_pred {α : Type} : ∀ (l : List α) (p q : α → Bool),
    (∀ a ∈ l, p a = q a) → l.find? p = l.find? q
  | [], _, _, _ => rfl
  | a :: as, p, q, h => by
    simp only [List.find?]
    rw [h a (List.mem_cons_self a as)]
    cases q a
    · exact find?_congr_pred as p q (fun x hx => h x (List.mem_cons_of_mem a hx))
    · rfl

/-- `find?` agrees on permuted lists when at most one element satisfies the
predicate. -/
theorem find?_perm_unique {α : Type} {l₁ l₂ : List α} {p : α → Bool}
    (hp : List.Perm l₁ l₂)
    (hu : ∀ a ∈ l₁, ∀ b ∈ l₁, p a = true → p b = true → a = b) :
    l₁.find? p = l₂.find? p := by
  cases hf : l₁.find? p with
  | none =>
    cases hg : l₂.find? p with
    | none => rfl
    | some b =>
      have hpb : p b = true := List.find?_some hg
      have hmb : b ∈ l₁ := hp.mem_iff.mpr (List.mem_of_find?_eq_some hg)
      have := List.find?_eq_none.mp hf b hmb
      simp_all
  | some a =>
    have hpa : p a = true := List.find?_some hf
    have hma : a ∈ l₁ := List.mem_of_find?_eq_some hf
    cases hg : l₂.find? p with
    | none =>
      have := List.find?_eq_none.mp hg a (hp.mem_iff.mp hma)
      simp_all
    | some b =>
      have hpb : p b = true := List.find?_some hg
      have hmb : b ∈ l₁ := hp.mem_iff.mpr (List.mem_of_find?_eq_some hg)
      rw [hu a hma b hmb hpa hpb]

/-- Equal refs from equal field data. -/
theorem objectRef_ext {r₁ r₂ : ObjectRef} (hk : r₁.kind = r₂.kind)
    (hn : r₁.nspace = r₂.nspace) (hm : r₁.name = r₂.name) : r₁ = r₂ := by
  cases r₁; cases r₂; simp_all

/-- The conflict precedence is antisymmetric up to the object ref. -/
theorem objPrec_antisymm {a b : RoutingObject}
    (h1 : objPrec a b) (h2 : objPrec b a) : a.ref = b.ref := by
  unfold objPrec at h1 h2
  rcases h1 with h1 | ⟨ht1, h1⟩ <;> rcases h2 with h2 | ⟨ht2, h2⟩
  · omega
  · omega
  · omega
  · rcases h1 with hk1 | ⟨hke1, h1⟩ <;> rcases h2 with hk2 | ⟨hke2, h2⟩
    · exact (lexLt_asymm _ _ hk1 hk2).elim
    · rw [hke2] at hk1
      rw [lexLt_irrefl] at hk1
      exact absurd hk1 (by simp)
    · rw [hke1] at hk2
      rw [lexLt_irrefl] at hk2
      exact absurd hk2 (by simp)
    · rcases h1 with hn1 | ⟨hne1, h1⟩ <;> rcases h2 with hn2 | ⟨hne2, h2⟩
      · exact (lexLt_asymm _ _ hn1 hn2).elim
      · rw [hne2] at hn1
        rw [lexLt_irrefl] at hn1
        exact absurd hn1 (by simp)
      · rw [hne1] at hn2
        rw [lexLt_irrefl] at hn2
        exact absurd hn2 (by simp)
      · exact objectRef_ext hke1 hne1
          (string_data_inj (lexLt_eq_of_not _ _ h2 h1))

/-- With pairwise-distinct refs, the conflict winner is unique. -/
theorem winner_unique {objs : List RoutingObject} {h : String} {p : Nat}
    {m : String} (hnd : (objs.map RoutingObject.ref).Nodup)
    {a b : RoutingObject} (ha : a ∈ objs) (hb : b ∈ objs)
    (hwa : isWinner objs h p m a) (hwb : isWinner objs h p m b) : a = b :=
  List.inj_on_of_nodup_map hnd ha hb
    (objPrec_antisymm (hwa.2 b hb hwb.1) (hwb.2 a ha hwa.1))

/-- The conflict winner only depends on the set of objects. -/
theorem winner_perm {l₁ l₂ : List RoutingObject} (hp : List.Perm l₁ l₂)
    (hnd : (l₁.map RoutingObject.ref).Nodup) (h : String) (p : Nat)
    (m : String) : winner l₁ h p m = winner l₂ h p m := by
  unfold winner
  have hstep : l₂.find? (fun o => decide (isWinner l₂ h p m o))
      = l₂.find? (fun o => decide (isWinner l₁ h p m o)) :=
    find?_congr_pred _ _ _
      (fun a _ => decide_eq_decide.mpr (isWinner_perm hp h p m a).symm)
  rw [hstep]
  exact find?_perm_unique hp (fun a ha b hb hpa hpb =>
    winner_unique hnd ha hb (of_decide_eq_true hpa) (of_decide_eq_true hpb))

/-- The declared match rules only depend on the set of objects, up to
permutation. -/
theorem matchesFor_perm {l₁ l₂ : List RoutingObject}
    (hp : List.Perm l₁ l₂) (h : String) (p : Nat) :
    List.Perm (matchesFor l₁ h p) (matchesFor l₂ h p) :=
  (hp.flatMap_right _).dedup

/-- The ordered route list of a VirtualHost is a function of the set of
well-formed objects (with distinct refs) and the services - not of the
order in which the objects appeared. -/
theorem vhostRoutes_perm_invariant {l₁ l₂ : List RoutingObject}
    {sv : List String} (hp : List.Perm l₁ l₂)
    (hnd : (l₁.map RoutingObject.ref).Nodup) (h : String) (p : Nat) :
    vhostRoutes l₁ sv h p = vhostRoutes l₂ sv h p := by
  unfold vhostRoutes
  have hfun : routeFor sv l₁ h p = routeFor sv l₂ h p := by
    funext m
    unfold routeFor
    rw [winner_perm hp hnd h p m]
  have hpre : List.Perm ((matchesFor l₁ h p).filterMap (routeFor sv l₁ h p))
      ((matchesFor l₂ h p).filterMap (routeFor sv l₂ h p)) := by
    rw [hfun]
    exact (matchesFor_perm hp h p).filterMap _
  exact List.Perm.eq_of_sorted
    (fun a b _ _ hab hba => (routeKeyLT_asymm hab hba).elim)
    (pairwise_sortRoutes (pairwise_ne_key l₁ sv h p))
    (pairwise_sortRoutes (pairwise_ne_key l₂ sv h p))
    ((sortRoutes_perm _).trans (hpre.trans (sortRoutes_perm _).symm))

/-- **C6**: in every dependency graph produced by the builder, each
VirtualHost's route list is strictly ordered by decreasing match specificity
with the lexical match string as tie-break; and for two snapshots whose
objects are permutations of each other (same services, refs pairwise
distinct), VirtualHosts with the same (hostname, port) carry identical route
lists - the order never depends on the arbitrary input order. -/
theorem vhost_route_order (s s₁ s₂ : Snapshot) :
    (∀ l ∈ (buildGraph s).listeners, ∀ vh ∈ l.vhosts,
      vh.routes.Pairwise routeKeyLT)
  ∧ (List.Perm s₁.objects s₂.objects → s₁.services = s₂.services →
      (s₁.objects.map RoutingObject.ref).Nodup →
      ∀ l₁ ∈ (buildGraph s₁).listeners, ∀ vh₁ ∈ l₁.vhosts,
      ∀ l₂ ∈ (buildGraph s₂).listeners, ∀ vh₂ ∈ l₂.vhosts,
      vh₁.hostname = vh₂.hostname → vh₁.port = vh₂.port →
      vh₁.routes = vh₂.routes) := by
  constructor
  · intro l hl vh hvh
    rw [buildGraph_vhost_routes hl hvh]
    exact vhostRoutes_pairwise _ _ _ _
  · intro hperm hsv hnd l₁ hl₁ vh₁ hvh₁ l₂ hl₂ vh₂ hvh₂ hh hp
    rw [buildGraph_vhost_routes hl₁ hvh₁, buildGraph_vhost_routes hl₂ hvh₂,
      hh, hp, hsv]
    exact vhostRoutes_perm_invariant (hperm.filter _)
      (hnd.sublist ((List.filter_sublist _).map _)) _ _

/-- **C6 witness**: two snapshots listing the same two objects for hostname
`x.example.com` in opposite input orders both produce the ordered route list
`[/bar, /foo]` (equal specificity, lexical tie-break) for that VirtualHost,
and the two lists coincide. -/
theorem vhost_route_order_witness :
    (VirtualHost.mk "x.example.com" 80
        [⟨"/bar", "svc"⟩, ⟨"/foo", "svc"⟩]).routes =
    (VirtualHost.mk "x.example.com" 80
        [⟨"/bar", "svc"⟩, ⟨"/foo", "svc"⟩]).routes :=
  (vhost_route_order
      ⟨[], [], [], []⟩
      ⟨[⟨⟨"HTTPProxy", "ns", "a"⟩, some "x.example.com", 80, ["/foo"], "svc", false, "", 1⟩,
        ⟨⟨"HTTPProxy", "ns", "b"⟩, some "x.example.com", 80, ["/bar"], "svc", false, "", 2⟩],
        ["svc"], [], []⟩
      ⟨[⟨⟨"HTTPProxy", "ns", "b"⟩, some "x.example.com", 80, ["/bar"], "svc", false, "", 2⟩,
        ⟨⟨"HTTPProxy", "ns", "a"⟩, some "x.example.com", 80, ["/foo"], "svc", false, "", 1⟩],
        ["svc"], [], []⟩).2
    (List.Perm.swap _ _ _) rfl (by decide)
    ⟨80, [⟨"x.example.com", 80, [⟨"/bar", "svc"⟩, ⟨"/foo", "svc"⟩]⟩]⟩ (by decide)
    ⟨"x.example.com", 80, [⟨"/bar", "svc"⟩, ⟨"/foo", "svc"⟩]⟩ (by decide)
    ⟨80, [⟨"x.example.com", 80, [⟨"/bar", "svc"⟩, ⟨"/foo", "svc"⟩]⟩]⟩ (by decide)
    ⟨"x.example.com", 80, [⟨"/bar", "svc"⟩, ⟨"/foo", "svc"⟩]⟩ (by decide)
    rfl rfl

/-- **C8 witness**: a controller name alone validates. -/
theorem GatewayParameters_Validate_ok_iff_witness :
    GatewayParameters.Validate
      (some ⟨"projectcontour.io/projectcontour/contour", none⟩) = none :=
  (GatewayParameters_Validate_ok_iff
      (some ⟨"projectcontour.io/projectcontour/contour", none⟩)).mpr
    (Or.inr ⟨⟨"projectcontour.io/projectcontour/contour", none⟩, rfl,
      Or.inl ⟨by decide, rfl⟩⟩)
